import Mathlib

/-!
# Verification of the Ai-Chatbot conversation streaming pipeline

Shallow embedding of the repository's two core pieces of logic:

* the server-side SSE generator `generate_chat_responses` (FastAPI backend,
  `server/app.py`, source quoted in full in the repository documentation under
  `src/client/src/components/MessageArea.tsx`), and
* the client-side reducer (`client/src/app/page.tsx`, source quoted in full in
  `src/client/frontend.md`): the `handleSubmit` handler, the `eventSource.onmessage`
  event dispatch, the `eventSource.onerror` handler, and the rendering of a
  message bubble in `MessageArea.tsx`.

JavaScript strings become `String`, JSON values become the inductive `JVal`,
message ids (JS numbers used only as counters) become `Nat`, and the dynamic
`JSON.parse` of the browser is modelled by an executable RFC-8259 parser
(`jsonParse`).  The nondeterministic outside world (the LangGraph event stream
feeding the generator, including a capability raising an exception) is an
explicit script of `GraphEvent`s.
-/

set_option autoImplicit false

namespace Chatbot

/-- Left brace character (written via its code point). -/
def lbrace : Char := Char.ofNat 123

/-- Right brace character (written via its code point). -/
def rbrace : Char := Char.ofNat 125

/-- Left brace as a one-character string. -/
def lbraceS : String := String.mk [lbrace]

/-- Right brace as a one-character string. -/
def rbraceS : String := String.mk [rbrace]

mutual

/-- JSON values, the result of the browser's `JSON.parse`.  Numbers keep their
lexeme; no claim inspects numeric values.  Arrays and objects carry their own
list types (`JArr`, `JObj`) so that functions over values stay structurally
recursive and evaluate inside the kernel. -/
inductive JVal where
  | jnull : JVal
  | jbool (b : Bool) : JVal
  | jnum (lexeme : String) : JVal
  | jstr (s : String) : JVal
  | jarr (elems : JArr) : JVal
  | jobj (members : JObj) : JVal

/-- The element list of a JSON array. -/
inductive JArr where
  | nil : JArr
  | cons (v : JVal) (rest : JArr) : JArr

/-- The member list of a JSON object (key, value pairs in order). -/
inductive JObj where
  | nil : JObj
  | cons (key : String) (v : JVal) (rest : JObj) : JObj

end

/-! ## A model of the browser's `JSON.parse` (RFC 8259)

The client reducer wraps every event in `JSON.parse(event.data)` and treats a
parse failure as "skip the event".  The backend frames events as JSON text, so
both sides of the wire meet at this grammar.  The parser is executable and
fuel-indexed (the fuel is sized from the input, see `jsonParse`). -/

/-- Value of one hexadecimal digit. -/
def hexDigit (c : Char) : Option Nat :=
  if c.isDigit then some (c.toNat - 48)
  else if 97 ≤ c.toNat ∧ c.toNat ≤ 102 then some (c.toNat - 87)
  else if 65 ≤ c.toNat ∧ c.toNat ≤ 70 then some (c.toNat - 55)
  else none

/-- JSON insignificant whitespace. -/
def isJsonWs (c : Char) : Bool :=
  c = ' ' || c = '\t' || c = '\n' || c = '\r'

/-- Drop leading JSON whitespace. -/
def skipWs : List Char → List Char
  | [] => []
  | c :: rest => if isJsonWs c then skipWs rest else c :: rest

/-- Body of a JSON string after the opening quote: returns the decoded
characters and the input after the closing quote.  Only the escapes of
RFC 8259 are accepted; in particular a backslash-apostrophe pair is a parse
error, and an unescaped control character is a parse error. -/
def parseStringBody : Nat → List Char → Option (List Char × List Char)
  | 0, _ => none
  | _ + 1, [] => none
  | fuel + 1, c :: rest =>
    if c = '"' then some ([], rest)
    else if c = '\\' then
      match rest with
      | [] => none
      | e :: rest2 =>
        let cont (d : Char) (inp : List Char) : Option (List Char × List Char) :=
          match parseStringBody fuel inp with
          | some (cs, r) => some (d :: cs, r)
          | none => none
        if e = '"' then cont '"' rest2
        else if e = '\\' then cont '\\' rest2
        else if e = '/' then cont '/' rest2
        else if e = 'b' then cont (Char.ofNat 8) rest2
        else if e = 'f' then cont (Char.ofNat 12) rest2
        else if e = 'n' then cont '\n' rest2
        else if e = 'r' then cont '\r' rest2
        else if e = 't' then cont '\t' rest2
        else if e = 'u' then
          match rest2 with
          | h1 :: h2 :: h3 :: h4 :: rest3 =>
            match hexDigit h1, hexDigit h2, hexDigit h3, hexDigit h4 with
            | some a, some b, some c2, some d =>
              cont (Char.ofNat (4096 * a + 256 * b + 16 * c2 + d)) rest3
            | _, _, _, _ => none
          | _ => none
        else none
    else if c.toNat < 32 then none
    else
      match parseStringBody fuel rest with
      | some (cs, r) => some (c :: cs, r)
      | none => none

/-- Longest prefix of decimal digits. -/
def digitSpan : List Char → List Char × List Char
  | [] => ([], [])
  | c :: rest =>
    if c.isDigit then
      let (ds, r) := digitSpan rest
      (c :: ds, r)
    else ([], c :: rest)

/-- Optional fraction part of a JSON number (`.` followed by at least one
digit); `none` marks a malformed number. -/
def parseFrac : List Char → Option (List Char × List Char)
  | c :: rest =>
    if c = '.' then
      match digitSpan rest with
      | ([], _) => none
      | (ds, r) => some ('.' :: ds, r)
    else some ([], c :: rest)
  | [] => some ([], [])

/-- Optional exponent part of a JSON number. -/
def parseExp : List Char → Option (List Char × List Char)
  | c :: rest =>
    if c = 'e' ∨ c = 'E' then
      let (sg, r1) :=
        match rest with
        | s :: rest2 => if s = '+' ∨ s = '-' then ([s], rest2) else (([] : List Char), rest)
        | [] => ([], rest)
      match digitSpan r1 with
      | ([], _) => none
      | (ds, r2) => some (c :: (sg ++ ds), r2)
    else some ([], c :: rest)
  | [] => some ([], [])

/-- JSON number: optional minus, integer part without a superfluous leading
zero, optional fraction and exponent.  The lexeme is kept verbatim. -/
def parseNumber (input : List Char) : Option (JVal × List Char) :=
  let (sign, r0) :=
    match input with
    | c :: rest => if c = '-' then (['-'], rest) else (([] : List Char), input)
    | [] => ([], input)
  match digitSpan r0 with
  | ([], _) => none
  | (ds, r1) =>
    if 1 < ds.length ∧ ds.head? = some '0' then none
    else
      match parseFrac r1 with
      | none => none
      | some (fr, r2) =>
        match parseExp r2 with
        | none => none
        | some (ex, r3) => some (.jnum (String.mk (sign ++ ds ++ fr ++ ex)), r3)

/-- The three sub-grammars of the recursive part of the JSON grammar: one
value, the members of an object, the elements of an array.  Fusing them into
one fuel-indexed function keeps the parser structurally recursive (so the
kernel can evaluate it on concrete payloads). -/
inductive PMode where
  | value
  | members
  | elements

/-- Result of `parseRun`, by mode. -/
inductive PRes where
  | val (v : JVal)
  | mems (ms : JObj)
  | elems (es : JArr)

/-- The recursive core of the JSON grammar.  `value` parses one JSON value
(leading whitespace allowed); `members` parses a non-empty object member list
up to and including the closing brace; `elements` parses a non-empty array
element list up to and including the closing bracket. -/
def parseRun : Nat → PMode → List Char → Option (PRes × List Char)
  | 0, _, _ => none
  | fuel + 1, .value, input =>
    match skipWs input with
    | [] => none
    | c :: rest =>
      if c = lbrace then
        match skipWs rest with
        | c2 :: r2 =>
          if c2 = rbrace then some (.val (.jobj .nil), r2)
          else
            match parseRun fuel .members (c2 :: r2) with
            | some (.mems ms, r3) => some (.val (.jobj ms), r3)
            | _ => none
        | [] => none
      else if c = '[' then
        match skipWs rest with
        | c2 :: r2 =>
          if c2 = ']' then some (.val (.jarr .nil), r2)
          else
            match parseRun fuel .elements (c2 :: r2) with
            | some (.elems vs, r3) => some (.val (.jarr vs), r3)
            | _ => none
        | [] => none
      else if c = '"' then
        match parseStringBody (rest.length + 1) rest with
        | some (cs, r) => some (.val (.jstr (String.mk cs)), r)
        | none => none
      else if c = 't' then
        match rest with
        | 'r' :: 'u' :: 'e' :: r => some (.val (.jbool true), r)
        | _ => none
      else if c = 'f' then
        match rest with
        | 'a' :: 'l' :: 's' :: 'e' :: r => some (.val (.jbool false), r)
        | _ => none
      else if c = 'n' then
        match rest with
        | 'u' :: 'l' :: 'l' :: r => some (.val .jnull, r)
        | _ => none
      else
        match parseNumber (c :: rest) with
        | some (v, r) => some (.val v, r)
        | none => none
  | fuel + 1, .members, input =>
    match skipWs input with
    | [] => none
    | c :: rest =>
      if c = '"' then
        match parseStringBody (rest.length + 1) rest with
        | none => none
        | some (key, r1) =>
          match skipWs r1 with
          | c2 :: r2 =>
            if c2 = ':' then
              match parseRun fuel .value r2 with
              | some (.val v, r3) =>
                match skipWs r3 with
                | c3 :: r4 =>
                  if c3 = ',' then
                    match parseRun fuel .members r4 with
                    | some (.mems ms, r5) => some (.mems (.cons (String.mk key) v ms), r5)
                    | _ => none
                  else if c3 = rbrace then some (.mems (.cons (String.mk key) v .nil), r4)
                  else none
                | [] => none
              | _ => none
            else none
          | [] => none
      else none
  | fuel + 1, .elements, input =>
    match parseRun fuel .value input with
    | some (.val v, r1) =>
      match skipWs r1 with
      | c :: r2 =>
        if c = ',' then
          match parseRun fuel .elements r2 with
          | some (.elems vs, r3) => some (.elems (.cons v vs), r3)
          | _ => none
        else if c = ']' then some (.elems (.cons v .nil), r2)
        else none
      | [] => none
    | _ => none

/-- One JSON value. -/
def parseValue (fuel : Nat) (input : List Char) : Option (JVal × List Char) :=
  match parseRun fuel .value input with
  | some (.val v, r) => some (v, r)
  | _ => none

/-- `JSON.parse`: one value and nothing but trailing whitespace. -/
def jsonParse (s : String) : Option JVal :=
  match parseValue (2 * s.data.length + 8) s.data with
  | some (v, rest) => if skipWs rest = [] then some v else none
  | none => none

/-! ## JavaScript value plumbing

The reducer reads fields out of the parsed object (`data.type`,
`data.content`, ...).  A missing field is JavaScript `undefined`, modelled as
`Option.none`; string contexts (`+=`, template rendering) apply JavaScript's
string coercion, modelled by `jsString`. -/

mutual

/-- JavaScript `String(v)` for a JSON value. -/
def jsString : JVal → String
  | .jnull => "null"
  | .jbool true => "true"
  | .jbool false => "false"
  | .jnum l => l
  | .jstr s => s
  | .jarr es => jsJoin es
  | .jobj _ => "[object Object]"

/-- JavaScript `Array.prototype.join(",")` over coerced elements (the array
coercion `String([...])`); a `null` element joins as the empty string. -/
def jsJoin : JArr → String
  | .nil => ""
  | .cons .jnull .nil => ""
  | .cons v .nil => jsString v
  | .cons .jnull rest => "," ++ jsJoin rest
  | .cons v rest => jsString v ++ "," ++ jsJoin rest

end

/-- Field lookup on a JSON object (`data.k`), `none` for `undefined`. -/
def jget : JObj → String → Option JVal
  | .nil, _ => none
  | .cons key v rest, k => if key == k then some v else jget rest k

/-- A field used in a string position: `undefined` coerces to "undefined". -/
def jsField (ms : JObj) (k : String) : String :=
  match jget ms k with
  | some v => jsString v
  | none => "undefined"

/-! ## The client reducer (`page.tsx`, quoted in `frontend.md`) -/

/-- The `SearchInfo` objects built by the reducer (`stages`, `query`, `urls`,
optional `error`).  `urls` holds whatever dynamic value the `search_results`
handler produced, `none` standing for JavaScript `undefined`. -/
structure SearchInfo where
  stages : List String
  query : String
  urls : Option JVal
  error : Option String

/-- The `Message` interface of `page.tsx`. -/
structure Message where
  id : Nat
  content : String
  isUser : Bool
  type : String
  isLoading : Option Bool := none
  searchInfo : Option SearchInfo := none

/-- The turn-local state of one streaming session: the `messages` React state
plus the `handleSubmit` closure's locals (`streamedContent`, `searchData`,
`hasReceivedContent`, `aiResponseId`) and the `checkpointId` state. -/
structure StreamState where
  messages : List Message
  streamedContent : String
  searchData : Option SearchInfo
  hasReceivedContent : Bool
  checkpointId : Option String
  aiResponseId : Nat

/-- The event shapes the `onmessage` dispatch distinguishes.  `unknown` covers
every successfully parsed payload whose `type` matches none of the literals
(including a missing or non-string `type`). -/
inductive ClientEvent where
  | checkpoint (id : String)
  | content (text : String)
  | searchStart (query : String)
  | searchResults (urls : Option JVal)
  | searchError (err : String)
  | endEvent
  | unknown

/-- Dispatch a parsed payload on `data.type` (strict string comparison, as the
chain of `data.type === '...'` does).  A parsed `null` payload throws on the
property access inside the `try`, which the surrounding `catch` turns into the
same no-effect outcome as an unknown type. -/
def eventFromJson : JVal → ClientEvent
  | .jobj ms =>
    match jget ms "type" with
    | some (.jstr t) =>
      if t = "checkpoint" then .checkpoint (jsField ms "checkpoint_id")
      else if t = "content" then .content (jsField ms "content")
      else if t = "search_start" then .searchStart (jsField ms "query")
      else if t = "search_results" then .searchResults (jget ms "urls")
      else if t = "search_error" then .searchError (jsField ms "error")
      else if t = "end" then .endEvent
      else .unknown
    | _ => .unknown
  | _ => .unknown

/-- The state update shared verbatim by the `search_start`, `search_results`
and `search_error` branches of the `onmessage` handler: store the new
`SearchInfo` in the local `searchData` and write
`{ ...msg, content: streamedContent, searchInfo: newSearchInfo,
isLoading: false }` over the assistant message. -/
def applySearchInfo (s : StreamState) (ns : SearchInfo) : StreamState :=
  { s with
    searchData := some ns
    messages := s.messages.map fun m =>
      if m.id == s.aiResponseId then
        { m with content := s.streamedContent, searchInfo := some ns, isLoading := some false }
      else m }

/-- The `newSearchInfo` object the `search_results` handler builds from the
previous `searchData` and the (possibly re-parsed) `urls` value. -/
def readingInfo (s : StreamState) (urls : Option JVal) : SearchInfo :=
  { stages := match s.searchData with | some d => d.stages ++ ["reading"] | none => ["reading"]
    query := match s.searchData with | some d => d.query | none => ""
    urls := urls
    error := none }

/-- The `newSearchInfo` object the `search_error` handler builds. -/
def errorInfo (s : StreamState) (e : String) : SearchInfo :=
  { stages := match s.searchData with | some d => d.stages ++ ["error"] | none => ["error"]
    query := match s.searchData with | some d => d.query | none => ""
    urls := some (.jarr .nil)
    error := some e }

/-- One step of the `onmessage` handler after a successful parse and dispatch;
the translation of each `if (data.type === ...)` branch of `page.tsx`. -/
def processEvent (s : StreamState) : ClientEvent → StreamState
  | .checkpoint id => { s with checkpointId := some id }
  | .content t =>
    let sc := s.streamedContent ++ t
    { s with
      streamedContent := sc
      hasReceivedContent := true
      messages := s.messages.map fun m =>
        if m.id == s.aiResponseId then { m with content := sc, isLoading := some false } else m }
  | .searchStart q =>
    applySearchInfo s { stages := ["searching"], query := q, urls := some (.jarr .nil), error := none }
  | .searchResults u =>
    let parsed : Option (Option JVal) :=
      match u with
      | some (.jstr str) =>
        match jsonParse str with
        | some v => some (some v)
        | none => none
      | other => some other
    match parsed with
    | none => s
    | some urls => applySearchInfo s (readingInfo s urls)
  | .searchError e => applySearchInfo s (errorInfo s e)
  | .endEvent =>
    match s.searchData with
    | some d =>
      let fin : SearchInfo := { d with stages := d.stages ++ ["writing"] }
      { s with
        messages := s.messages.map fun m =>
          if m.id == s.aiResponseId then { m with searchInfo := some fin, isLoading := some false } else m }
    | none => s
  | .unknown => s

/-- Fold a list of already-dispatched events through the reducer. -/
def processEvents (s : StreamState) (evs : List ClientEvent) : StreamState :=
  evs.foldl processEvent s

/-- The full `onmessage` handler on one raw wire payload: `JSON.parse` inside
`try`, a parse failure only logs and leaves all state alone. -/
def handleRaw (s : StreamState) (raw : String) : StreamState :=
  match jsonParse raw with
  | none => s
  | some v => processEvent s (eventFromJson v)

/-- Consume a whole stream of raw payloads. -/
def processRaws (s : StreamState) (raws : List String) : StreamState :=
  raws.foldl handleRaw s

/-- The generic failure text of `eventSource.onerror`. -/
def transportErrorText : String := "Sorry, there was an error processing your request."

/-- The `eventSource.onerror` handler: close, and only when `streamedContent`
is (falsy, i.e.) empty, substitute the generic failure text. -/
def onTransportError (s : StreamState) : StreamState :=
  if s.streamedContent = "" then
    { s with
      messages := s.messages.map fun m =>
        if m.id == s.aiResponseId then
          { m with content := transportErrorText, isLoading := some false }
        else m }
  else s

/-! ## Rendering a message bubble (`MessageArea.tsx`) -/

/-- What the message bubble of `MessageArea.tsx` shows for a message's content
area: the typing animation, the waiting fallback, or text. -/
inductive Rendered where
  | typing
  | waiting
  | text (t : String)
deriving DecidableEq

/-- `message.isLoading ? <PremiumTypingAnimation/> : (message.content || <waiting fallback/>)`. -/
def renderBubble (m : Message) : Rendered :=
  if m.isLoading = some true then .typing
  else if m.content = "" then .waiting
  else .text m.content

/-! ## `handleSubmit` (`page.tsx`, quoted in `frontend.md`) -/

/-- The three React state cells of the `Home` component. -/
structure AppState where
  messages : List Message
  currentMessage : String
  checkpointId : Option String

/-- The stream connection `handleSubmit` opens, represented by its request
parameters (the `EventSource` URL is built from exactly these two) together
with the initial turn-local state of its handlers. -/
structure Turn where
  userInput : String
  requestCheckpointId : Option String
  stream0 : StreamState

/-- JavaScript `String.prototype.trim`: strip leading and trailing
whitespace. -/
def jsTrim (s : String) : String :=
  String.mk (((s.data.dropWhile Char.isWhitespace).reverse.dropWhile Char.isWhitespace).reverse)

/-- `messages.length > 0 ? Math.max(...messages.map(msg => msg.id)) + 1 : 1`. -/
def newMessageIdOf (msgs : List Message) : Nat :=
  if 0 < msgs.length then (msgs.map fun m => m.id).foldl Nat.max 0 + 1 else 1

/-- The initial `messages` state: the welcome message. -/
def initialMessages : List Message :=
  [{ id := 1, content := "Hi there, how can I help you?", isUser := false, type := "message" }]

/-- `handleSubmit`: guard on `currentMessage.trim()`, append the user message,
clear the input, append the assistant placeholder, and open the stream.
Returns the updated React state and, when the guard passes, the opened
connection (`none` means no `EventSource` was created). -/
def handleSubmit (st : AppState) : AppState × Option Turn :=
  if jsTrim st.currentMessage = "" then (st, none)
  else
    let newMessageId := newMessageIdOf st.messages
    let userMsg : Message :=
      { id := newMessageId, content := st.currentMessage, isUser := true, type := "message" }
    let aiResponseId := newMessageId + 1
    let placeholder : Message :=
      { id := aiResponseId, content := "", isUser := false, type := "message"
        isLoading := some true
        searchInfo := some { stages := [], query := "", urls := some (.jarr .nil), error := none } }
    let msgs := st.messages ++ [userMsg, placeholder]
    ({ st with messages := msgs, currentMessage := "" },
     some
       { userInput := st.currentMessage
         requestCheckpointId := st.checkpointId
         stream0 :=
           { messages := msgs, streamedContent := "", searchData := none
             hasReceivedContent := false, checkpointId := st.checkpointId
             aiResponseId := aiResponseId } })

/-! ## The server generator (`server/app.py`, quoted in the repository docs)

`generate_chat_responses` walks the LangGraph event stream and yields SSE
frames.  The outside world (model/search capabilities) is an explicit script
of `GraphEvent`s; a capability raising an exception (model error, timeout,
or `serialise_ai_message_chunk`'s `TypeError`) is the `failure` script entry:
the `async for` re-raises it, so the generator stops yielding at that point
and the trailing `yield` of the end frame is never reached. -/

/-- One tool call as seen on the model's final message (`name`, `args`,
`id`); only `args["query"]` is ever read, with default `""`. -/
structure ToolCall where
  name : String
  args : List (String × String)
  id : String

/-- The LangGraph events the generator's loop dispatches on, plus `failure`
for an exception surfacing out of the stream. -/
inductive GraphEvent where
  | chatModelStream (chunk : String)
  | chatModelEnd (toolCalls : List ToolCall)
  | toolEnd (name : String) (output : Option (List (Option String)))
  | otherEvent
  | failure

/-- The frames the generator yields, by payload.  There is no error frame:
the source contains no `yield` of one. -/
inductive Frame where
  | checkpoint (id : String)
  | content (text : String)
  | searchStart (query : String)
  | searchResults (urls : List String)
  | endFrame
deriving DecidableEq

/-- Python `str.replace` for a one-character needle: every occurrence of that
character, left to right, becomes `rep` (for a single-character needle the
general left-to-right non-overlapping scan degenerates to exactly this
per-character expansion). -/
def replace1 (s : String) (pat : Char) (rep : String) : String :=
  String.mk (s.data.map fun c => if c = pat then rep.data else [c]).flatten

/-- `safe_content = chunk_content.replace("'", "\\'").replace("\n", "\\n")`:
the only escaping applied to a content fragment. -/
def safe_content (chunk : String) : String :=
  replace1 (replace1 chunk '\'' "\\'") '\n' "\\n"

/-- `safe_query = search_query.replace('"', '\\"').replace("'", "\\'").replace("\n", "\\n")`. -/
def safe_query (q : String) : String :=
  replace1 (replace1 (replace1 q '"' "\\\"") '\'' "\\'") '\n' "\\n"

/-- Lowercase hexadecimal digit. -/
def hexChar (n : Nat) : Char :=
  if n < 10 then Char.ofNat (48 + n) else Char.ofNat (87 + n)

/-- Python `json.dumps` escaping of one character (with `ensure_ascii=True`;
astral-plane surrogate pairing is elided, no claim exercises it). -/
def pyEscapeChar (c : Char) : List Char :=
  if c = '"' then ['\\', '"']
  else if c = '\\' then ['\\', '\\']
  else if c = '\n' then ['\\', 'n']
  else if c = '\r' then ['\\', 'r']
  else if c = '\t' then ['\\', 't']
  else if c = Char.ofNat 8 then ['\\', 'b']
  else if c = Char.ofNat 12 then ['\\', 'f']
  else if c.toNat < 32 ∨ 126 < c.toNat then
    ['\\', 'u', hexChar (c.toNat / 4096 % 16), hexChar (c.toNat / 256 % 16),
     hexChar (c.toNat / 16 % 16), hexChar (c.toNat % 16)]
  else [c]

/-- Python `json.dumps` of one string. -/
def pyJsonString (s : String) : String :=
  "\"" ++ String.mk (s.data.map pyEscapeChar).flatten ++ "\""

/-- Python `json.dumps(urls)` for the url list (default separator `", "`). -/
def pyJsonDumpsList (urls : List String) : String :=
  "[" ++ String.intercalate ", " (urls.map pyJsonString) ++ "]"

/-- The JSON text between `data: ` and the blank line of each yielded SSE
frame, exactly as the f-strings build it; this is the `event.data` string the
browser's `EventSource` hands to the client's `onmessage`. -/
def framePayload : Frame → String
  | .checkpoint id =>
    lbraceS ++ "\"type\": \"checkpoint\", \"checkpoint_id\": \"" ++ id ++ "\"" ++ rbraceS
  | .content chunk =>
    lbraceS ++ "\"type\": \"content\", \"content\": \"" ++ safe_content chunk ++ "\"" ++ rbraceS
  | .searchStart q =>
    lbraceS ++ "\"type\": \"search_start\", \"query\": \"" ++ safe_query q ++ "\"" ++ rbraceS
  | .searchResults urls =>
    lbraceS ++ "\"type\": \"search_results\", \"urls\": " ++ pyJsonDumpsList urls ++ rbraceS
  | .endFrame => lbraceS ++ "\"type\": \"end\"" ++ rbraceS

/-- The full SSE line of a frame (`data: <json>` and the blank line). -/
def frameString (f : Frame) : String :=
  "data: " ++ framePayload f ++ "\n\n"

/-- The generator's `async for` loop over the graph events, followed by the
final end frame; a `failure` aborts the generator before that frame. -/
def processGraphEvents : List GraphEvent → List Frame
  | [] => [.endFrame]
  | e :: rest =>
    match e with
    | .chatModelStream chunk => .content chunk :: processGraphEvents rest
    | .chatModelEnd toolCalls =>
      let searchCalls := toolCalls.filter fun c => c.name == "tavily_search_results_json"
      match searchCalls with
      | [] => processGraphEvents rest
      | c :: _ =>
        let q := match c.args.find? (fun a => a.1 == "query") with | some a => a.2 | none => ""
        .searchStart q :: processGraphEvents rest
    | .toolEnd name output =>
      if name == "tavily_search_results_json" then
        match output with
        | some items => .searchResults (items.filterMap id) :: processGraphEvents rest
        | none => processGraphEvents rest
      else processGraphEvents rest
    | .otherEvent => processGraphEvents rest
    | .failure => []

/-- `generate_chat_responses(message, checkpoint_id)`: when the request had no
`checkpoint_id`, a freshly minted id (the `uuid4` value, passed in as
`mintedId`) is sent first as a checkpoint frame; then the event loop runs. -/
def generate_chat_responses (checkpoint_id : Option String) (mintedId : String)
    (script : List GraphEvent) : List Frame :=
  match checkpoint_id with
  | none => .checkpoint mintedId :: processGraphEvents script
  | some _ => processGraphEvents script

/-- Frame classifier used to state uniqueness of the checkpoint frame. -/
def isCheckpointFrame : Frame → Bool
  | .checkpoint _ => true
  | _ => false

/-! ## Helper definitions and lemmas for the theorems -/

/-- The currently displayed assistant message of the running turn: the first
message whose `id` is the turn's `aiResponseId` (the one every stream handler
updates through its `.map`). -/
def findAi (s : StreamState) : Option Message :=
  s.messages.find? fun m => m.id == s.aiResponseId

/-- The stage list of the reducer's `searchData` record (empty while none). -/
def dataStages (s : StreamState) : List String :=
  match s.searchData with
  | some d => d.stages
  | none => []

/-- The stage list recorded on the displayed assistant message. -/
def msgStages (s : StreamState) : List String :=
  match findAi s with
  | some m =>
    match m.searchInfo with
    | some d => d.stages
    | none => []
  | none => []

/-- Every occurrence of `reading` has an occurrence of `searching` strictly
before it (the reading-never-before-searching property of the spec). -/
def ReadingPreceded (l : List String) : Prop :=
  ∀ i, l.get? i = some "reading" → ∃ j, j < i ∧ l.get? j = some "searching"

/-! ### Causal-order definitions and concrete witness states -/

/-- The turn-start state used as C1's concrete witness input. -/
def wStateC1 : StreamState :=
  { messages := [{ id := 3, content := "", isUser := false, type := "message"
                   isLoading := some true, searchInfo := none }]
    streamedContent := "", searchData := none, hasReceivedContent := false
    checkpointId := none, aiResponseId := 3 }

/-- The assistant placeholder inside `wStateC1`. -/
def wMsgC1 : Message :=
  { id := 3, content := "", isUser := false, type := "message"
    isLoading := some true, searchInfo := none }

/-- The turn-start state used as C8's concrete witness input. -/
def wStateC8 : StreamState :=
  { messages := [{ id := 3, content := "", isUser := false, type := "message"
                   isLoading := some true
                   searchInfo := some { stages := [], query := "", urls := some (.jarr .nil), error := none } }]
    streamedContent := "", searchData := none, hasReceivedContent := false
    checkpointId := none, aiResponseId := 3 }

/-- A mid-turn state whose stage record already holds `searching, reading`,
used to exhibit what a second `search_start` does to it. -/
def wStateC6 : StreamState :=
  { messages := [{ id := 3, content := "partial", isUser := false, type := "message"
                   isLoading := some false
                   searchInfo := some { stages := ["searching", "reading"], query := "q0"
                                        urls := some (.jarr .nil), error := none } }]
    streamedContent := "partial"
    searchData := some { stages := ["searching", "reading"], query := "q0"
                         urls := some (.jarr .nil), error := none }
    hasReceivedContent := true, checkpointId := some "cp", aiResponseId := 3 }

/-- The turn-start state used in C5's counterexample and witness. -/
def wStateC5 : StreamState :=
  { messages := [{ id := 3, content := "", isUser := false, type := "message"
                   isLoading := some true
                   searchInfo := some { stages := [], query := "", urls := some (.jarr .nil), error := none } }]
    streamedContent := "", searchData := none, hasReceivedContent := false
    checkpointId := none, aiResponseId := 3 }

/-- The turn-start state used as C7's concrete witness input. -/
def wStateC7 : StreamState :=
  { messages := [{ id := 3, content := "", isUser := false, type := "message"
                   isLoading := some true
                   searchInfo := some { stages := [], query := "", urls := some (.jarr .nil), error := none } }]
    streamedContent := "", searchData := none, hasReceivedContent := false
    checkpointId := none, aiResponseId := 3 }

/-- Events that are a `searchStart`. -/
def isSearchStartEv : ClientEvent → Bool
  | .searchStart _ => true
  | _ => false

/-- The causal-order side condition the protocol guarantees for the events of
one turn: a `searchResults` event is only delivered after some `searchStart`
of the same turn.  `flag` records whether a `searchStart` has been seen. -/
def causalFrom : Bool → List ClientEvent → Bool
  | _, [] => true
  | flag, e :: rest =>
    match e with
    | .searchResults _ => flag && causalFrom flag rest
    | .searchStart _ => causalFrom true rest
    | _ => causalFrom flag rest

/-- Causal order for a whole turn (no `searchStart` seen yet at its start). -/
def causalOk (evs : List ClientEvent) : Bool :=
  causalFrom false evs

/-- A stage list either starts with `searching` or has no `reading` at all. -/
def headOrNoReading (l : List String) : Prop :=
  l.head? = some "searching" ∨ "reading" ∉ l

/-- The reducer's stage invariant, relative to whether a `searchStart` has
been processed (`flag`). -/
def stageInv (flag : Bool) (s : StreamState) : Prop :=
  (s.searchData = none → flag = false) ∧
  (∀ d, s.searchData = some d →
    (flag = true → d.stages.head? = some "searching") ∧
    (flag = false → "reading" ∉ d.stages)) ∧
  headOrNoReading (msgStages s)

/-- No handler but `end` ever records the `writing` stage. -/
def noWritingInv (s : StreamState) : Prop :=
  "writing" ∉ dataStages s ∧ "writing" ∉ msgStages s

theorem find?_map_pres {α : Type} (l : List α) (f : α → α) (p : α → Bool)
    (h : ∀ m, p (f m) = p m) : (l.map f).find? p = (l.find? p).map f := by
  induction l with
  | nil => rfl
  | cons a t ih =>
    by_cases hp : p a
    · simp [List.find?_cons, hp, h a]
    · simp [List.find?_cons, hp, h a, ih]

/-- `find?` of the ai message over the reducer's uniform
"`map` and update the matching message" pattern: the found message (if any)
receives the update. -/
theorem findAi_map_branch (s : StreamState) (upd : Message → Message)
    (hid : ∀ m, (upd m).id = m.id) :
    List.find? (fun m => m.id == s.aiResponseId)
        (s.messages.map fun m => if m.id == s.aiResponseId then upd m else m)
      = (findAi s).map upd := by
  rw [find?_map_pres]
  · unfold findAi
    rcases hm : List.find? (fun m => m.id == s.aiResponseId) s.messages with _ | m
    · rw [hm]
      rfl
    · have hp : (m.id == s.aiResponseId) = true := by simpa using List.find?_some hm
      rw [hm]
      simp only [Option.map]
      rw [if_pos hp]
  · intro m
    by_cases hc : (m.id == s.aiResponseId) = true
    · rw [if_pos hc, hc]
      simp [hid m, (by simpa using hc : m.id = s.aiResponseId)]
    · rw [if_neg hc]

theorem findAi_applySearchInfo (s : StreamState) (ns : SearchInfo) :
    findAi (applySearchInfo s ns) = (findAi s).map fun m =>
      { m with content := s.streamedContent, searchInfo := some ns, isLoading := some false } := by
  unfold applySearchInfo findAi
  simp only
  exact findAi_map_branch s _ (fun m => rfl)

theorem dataStages_applySearchInfo (s : StreamState) (ns : SearchInfo) :
    dataStages (applySearchInfo s ns) = ns.stages := rfl

theorem msgStages_applySearchInfo (s : StreamState) (ns : SearchInfo) :
    msgStages (applySearchInfo s ns)
      = match findAi s with
        | some _ => ns.stages
        | none => [] := by
  unfold msgStages
  rw [findAi_applySearchInfo]
  rcases findAi s with _ | m <;> rfl

theorem string_foldl_append (l : List String) (x y : String) :
    l.foldl (· ++ ·) (x ++ y) = x ++ l.foldl (· ++ ·) y := by
  induction l generalizing y with
  | nil => rfl
  | cons b t ih =>
    simp only [List.foldl_cons]
    rw [String.append_assoc, ih]

theorem string_join_cons (a : String) (l : List String) :
    String.join (a :: l) = a ++ String.join l := by
  show l.foldl (· ++ ·) ("" ++ a) = a ++ l.foldl (· ++ ·) ""
  have : "" ++ a = a ++ "" := by simp
  rw [this, string_foldl_append]

theorem processEvent_content_findAi (s : StreamState) (f : String) :
    findAi (processEvent s (.content f)) = (findAi s).map fun m =>
      { m with content := s.streamedContent ++ f, isLoading := some false } := by
  unfold findAi processEvent
  simp only
  rw [find?_map_pres]
  · rcases hm : s.messages.find? (fun m => m.id == s.aiResponseId) with _ | m
    · rw [hm]
      rfl
    · have hp : m.id = s.aiResponseId := by simpa using List.find?_some hm
      rw [hm]
      simp [hp]
  · intro m
    by_cases hid : m.id == s.aiResponseId <;> simp [hid]

theorem processEvents_content (fs : List String) (s : StreamState) :
    (processEvents s (fs.map ClientEvent.content)).aiResponseId = s.aiResponseId ∧
    (processEvents s (fs.map ClientEvent.content)).streamedContent
      = s.streamedContent ++ String.join fs ∧
    (processEvents s (fs.map ClientEvent.content)).searchData = s.searchData ∧
    findAi (processEvents s (fs.map ClientEvent.content)) = (findAi s).map fun m =>
      if fs.isEmpty then m
      else { m with content := s.streamedContent ++ String.join fs, isLoading := some false } := by
  induction fs generalizing s with
  | nil =>
    refine ⟨rfl, by simp [processEvents, String.join], rfl, ?_⟩
    simp [processEvents, String.join]
  | cons f fs ih =>
    have hstep : processEvents s ((f :: fs).map ClientEvent.content)
        = processEvents (processEvent s (.content f)) (fs.map ClientEvent.content) := rfl
    obtain ⟨ih1, ih2, ih3, ih4⟩ := ih (processEvent s (.content f))
    have hai : (processEvent s (.content f)).aiResponseId = s.aiResponseId := rfl
    have hsc : (processEvent s (.content f)).streamedContent = s.streamedContent ++ f := rfl
    have hsd : (processEvent s (.content f)).searchData = s.searchData := rfl
    refine ⟨?_, ?_, ?_, ?_⟩
    · rw [hstep, ih1]
      exact hai
    · rw [hstep, ih2, hsc, string_join_cons, String.append_assoc]
    · rw [hstep, ih3, hsd]
    · rw [hstep, ih4, processEvent_content_findAi, Option.map_map]
      rcases hm : findAi s with _ | m
      · rfl
      · cases m
        rw [string_join_cons]
        by_cases hfs : fs.isEmpty
        · have hnil : fs = [] := List.isEmpty_iff.mp hfs
          subst hnil
          simp [String.join]
        · simp only [Option.map_some, Function.comp_apply, hfs, List.isEmpty_cons,
            Bool.false_eq_true, if_false]
          rw [hsc, String.append_assoc]
          rfl

/-! ## C1: content accumulation -/

/-- C1.  For every sequence of `content` events with fragments `f1..fn`
delivered to the client reducer for one turn (a turn starts with an empty
`streamedContent` and an empty assistant placeholder), the reducer's
accumulated text afterwards equals the ordered concatenation
`f1 ++ f2 ++ ... ++ fn`, for every choice of fragment boundaries, and the
displayed assistant message's content equals that accumulated text. -/
theorem content_accumulation (fs : List String) (s : StreamState) (m0 : Message)
    (h1 : s.streamedContent = "")
    (h2 : findAi s = some m0)
    (h3 : m0.content = "") :
    (processEvents s (fs.map ClientEvent.content)).streamedContent = String.join fs ∧
    ∃ m, findAi (processEvents s (fs.map ClientEvent.content)) = some m ∧
      m.content = String.join fs := by
  obtain ⟨_, hsc, _, hfind⟩ := processEvents_content fs s
  constructor
  · rw [hsc, h1]
    simp
  · rw [hfind, h2]
    refine ⟨_, rfl, ?_⟩
    by_cases hfs : fs.isEmpty
    · have hnil : fs = [] := List.isEmpty_iff.mp hfs
      subst hnil
      simp [hfs, h3, String.join]
    · simp [hfs, h1]

/-- Witness for `content_accumulation`: two fragments at a concrete state. -/
theorem content_accumulation_witness :
    (wStateC1.streamedContent = "" ∧ findAi wStateC1 = some wMsgC1 ∧ wMsgC1.content = "") ∧
    ((processEvents wStateC1 (["Hel", "lo"].map ClientEvent.content)).streamedContent
        = String.join ["Hel", "lo"] ∧
      ∃ m, findAi (processEvents wStateC1 (["Hel", "lo"].map ClientEvent.content)) = some m ∧
        m.content = String.join ["Hel", "lo"]) :=
  ⟨⟨rfl, rfl, rfl⟩, content_accumulation ["Hel", "lo"] wStateC1 wMsgC1 rfl rfl rfl⟩

/-! ## C4: checkpoint emission -/

theorem processGraphEvents_filter_checkpoint (script : List GraphEvent) :
    (processGraphEvents script).filter isCheckpointFrame = [] := by
  induction script with
  | nil => rfl
  | cons e rest ih =>
    cases e with
    | chatModelStream c => simpa [processGraphEvents, isCheckpointFrame] using ih
    | chatModelEnd tcs =>
      simp only [processGraphEvents]
      cases htc : tcs.filter (fun c => c.name == "tavily_search_results_json") with
      | nil => simpa [htc] using ih
      | cons c cs => simpa [htc, isCheckpointFrame] using ih
    | toolEnd name output =>
      simp only [processGraphEvents]
      by_cases hn : (name == "tavily_search_results_json") = true
      · cases output <;> simp [hn, isCheckpointFrame, ih]
      · simp [hn, ih]
    | otherEvent => simpa [processGraphEvents] using ih
    | failure => rfl

/-- C4.  For every turn whose request omitted the thread id the stream
generator emits exactly one checkpoint frame, it carries the freshly minted
id, and it stands before every other frame of the turn; for every turn whose
request included a thread id, no checkpoint frame is emitted.  This holds for
every script of graph events, failing scripts included. -/
theorem checkpoint_emission (nid : String) (script : List GraphEvent) (c : String) :
    (generate_chat_responses none nid script).head? = some (.checkpoint nid) ∧
    ((generate_chat_responses none nid script).filter isCheckpointFrame).length = 1 ∧
    ((generate_chat_responses (some c) nid script).filter isCheckpointFrame).length = 0 := by
  refine ⟨rfl, ?_, ?_⟩
  · simp [generate_chat_responses, isCheckpointFrame, processGraphEvents_filter_checkpoint]
  · simp [generate_chat_responses, processGraphEvents_filter_checkpoint]

/-! ## C2: failure semantics of the generator -/

/-- C2 (evidence of the code bug).  A turn in which the model capability fails
after one streamed fragment: the generator's output stops right after the
already-streamed frames.  No end frame follows the failure — and the
generator has no error frame at all (`Frame` has no such constructor because
the source yields none) — contradicting the documented `error`-then-`end`
failure contract. -/
theorem failure_truncates_stream :
    generate_chat_responses none "thread-1" [.chatModelStream "partial answer", .failure]
      = [.checkpoint "thread-1", .content "partial answer"] ∧
    Frame.endFrame ∉
      generate_chat_responses none "thread-1" [.chatModelStream "partial answer", .failure] :=
  ⟨rfl, by decide⟩

/-! ## C3: escaping of content fragments -/

/-- C3 (evidence of the code bug).  `safe_content` escapes only single quotes
and newlines, so the framed content payload does not round-trip through the
reducer's `JSON.parse`: a fragment that is one double-quote character frames
to invalid JSON; a fragment with a single quote frames to the invalid JSON
escape backslash-apostrophe; a fragment with a backslash parses but to a
different string (`\b` collapses to a backspace).  Only the newline case of
the claim survives. -/
theorem content_escaping_not_json :
    jsonParse (framePayload (.content "\"")) = none ∧
    jsonParse (framePayload (.content "it's")) = none ∧
    jsonParse (framePayload (.content "a\\b"))
      = some (.jobj (.cons "type" (.jstr "content")
          (.cons "content" (.jstr (String.mk ['a', Char.ofNat 8])) .nil))) ∧
    String.mk ['a', Char.ofNat 8] ≠ "a\\b" ∧
    (∀ ms, jsonParse (framePayload (.content "line1\nline2")) = some (.jobj ms) →
      jsField ms "content" = "line1\nline2") :=
  ⟨rfl, rfl, rfl, by decide, fun ms h => by
    have hms : ms = .cons "type" (.jstr "content")
        (.cons "content" (.jstr "line1\nline2") .nil) := by
      have h0 : jsonParse (framePayload (.content "line1\nline2"))
          = some (.jobj (.cons "type" (.jstr "content")
              (.cons "content" (.jstr "line1\nline2") .nil))) := rfl
      rw [h0] at h
      injection h with h1
      injection h1 with h2
      exact h2.symm
    rw [hms]
    rfl⟩

/-! ## C8: malformed and unknown events are skipped -/

/-- C8.  A received payload that is not parseable JSON, or that parses but
carries an unrecognized `type`, leaves all turn-local state unchanged, and
consuming the rest of the stream proceeds as if the bad event had not been
there; one malformed event never aborts the turn. -/
theorem malformed_event_skipped (s : StreamState) (pre post : List String) (raw : String)
    (h : jsonParse raw = none ∨
      ∃ v, jsonParse raw = some v ∧ eventFromJson v = ClientEvent.unknown) :
    handleRaw s raw = s ∧
    processRaws s (pre ++ raw :: post) = processRaws s (pre ++ post) := by
  have hskip : ∀ t : StreamState, handleRaw t raw = t := by
    intro t
    rcases h with h | ⟨v, hv, hu⟩
    · simp [handleRaw, h]
    · simp [handleRaw, hv, hu, processEvent]
  refine ⟨hskip s, ?_⟩
  simp only [processRaws, List.foldl_append, List.foldl_cons]
  rw [hskip]

/-- Witness for `malformed_event_skipped`: a truncated JSON payload between
two content payloads of a concrete turn. -/
theorem malformed_event_skipped_witness :
    (jsonParse "\x7bbroken" = none ∨
      ∃ v, jsonParse "\x7bbroken" = some v ∧ eventFromJson v = ClientEvent.unknown) ∧
    (handleRaw wStateC8 "\x7bbroken" = wStateC8 ∧
      processRaws wStateC8
          ([framePayload (.content "Hel")] ++ "\x7bbroken" :: [framePayload (.content "lo")])
        = processRaws wStateC8 ([framePayload (.content "Hel")] ++ [framePayload (.content "lo")])) :=
  ⟨Or.inl rfl,
   malformed_event_skipped wStateC8 [framePayload (.content "Hel")]
     [framePayload (.content "lo")] "\x7bbroken" (Or.inl rfl)⟩

/-! ## C9: message id generation -/

theorem foldl_max_init_le (l : List Nat) (a : Nat) : a ≤ l.foldl Nat.max a := by
  induction l generalizing a with
  | nil => exact Nat.le_refl a
  | cons b t ih => exact Nat.le_trans (Nat.le_max_left a b) (ih (Nat.max a b))

theorem mem_le_foldl_max (l : List Nat) : ∀ a x : Nat, x ∈ l → x ≤ l.foldl Nat.max a := by
  induction l with
  | nil =>
    intro a x hx
    cases hx
  | cons b t ih =>
    intro a x hx
    rcases List.mem_cons.mp hx with hxb | hxt
    · subst hxb
      exact Nat.le_trans (Nat.le_max_right a x) (foldl_max_init_le t (Nat.max a x))
    · exact ih (Nat.max a b) x hxt

/-- C9.  A submission that passes the non-blank guard appends a user message
whose id is strictly greater than every id already in the list
(`max existing + 1`, or `1` for an empty list) and an assistant placeholder
with that id plus one; consequently, if the ids were pairwise distinct before
the submission they are pairwise distinct after it. -/
theorem submit_ids (st : AppState) (h : ¬ jsTrim st.currentMessage = "") :
    (handleSubmit st).1.messages
      = st.messages ++
        [{ id := newMessageIdOf st.messages, content := st.currentMessage
           isUser := true, type := "message" },
         { id := newMessageIdOf st.messages + 1, content := "", isUser := false
           type := "message", isLoading := some true
           searchInfo := some { stages := [], query := "", urls := some (.jarr .nil), error := none } }] ∧
    (∃ t, (handleSubmit st).2 = some t ∧ t.stream0.aiResponseId = newMessageIdOf st.messages + 1) ∧
    (∀ m ∈ st.messages, m.id < newMessageIdOf st.messages) ∧
    (((st.messages.map fun m => m.id).Pairwise (· ≠ ·)) →
      (((handleSubmit st).1.messages.map fun m => m.id).Pairwise (· ≠ ·))) := by
  have hsub : handleSubmit st
      = ({ st with
            messages := st.messages ++
              [{ id := newMessageIdOf st.messages, content := st.currentMessage
                 isUser := true, type := "message" },
               { id := newMessageIdOf st.messages + 1, content := "", isUser := false
                 type := "message", isLoading := some true
                 searchInfo := some { stages := [], query := "", urls := some (.jarr .nil), error := none } }]
            currentMessage := "" },
         some
           { userInput := st.currentMessage
             requestCheckpointId := st.checkpointId
             stream0 :=
               { messages := st.messages ++
                   [{ id := newMessageIdOf st.messages, content := st.currentMessage
                      isUser := true, type := "message" },
                    { id := newMessageIdOf st.messages + 1, content := "", isUser := false
                      type := "message", isLoading := some true
                      searchInfo := some { stages := [], query := "", urls := some (.jarr .nil), error := none } }]
                 streamedContent := "", searchData := none
                 hasReceivedContent := false, checkpointId := st.checkpointId
                 aiResponseId := newMessageIdOf st.messages + 1 } }) := by
    unfold handleSubmit
    rw [if_neg h]
  have hlt : ∀ m ∈ st.messages, m.id < newMessageIdOf st.messages := by
    intro m hm
    have hlen : 0 < st.messages.length := List.length_pos.mpr (List.ne_nil_of_mem hm)
    have hmem : m.id ∈ st.messages.map fun m => m.id := List.mem_map_of_mem _ hm
    have hle := mem_le_foldl_max (st.messages.map fun m => m.id) 0 m.id hmem
    unfold newMessageIdOf
    rw [if_pos hlen]
    exact Nat.lt_succ_of_le hle
  refine ⟨by rw [hsub], by rw [hsub]; exact ⟨_, rfl, rfl⟩, hlt, ?_⟩
  intro hpair
  rw [hsub]
  simp only [List.map_append, List.map_cons, List.map_nil]
  rw [List.pairwise_append]
  refine ⟨hpair, ?_, ?_⟩
  · simp
  · intro a ha b hb
    have ha' : ∃ m ∈ st.messages, m.id = a := by
      rcases List.mem_map.mp ha with ⟨m, hm, hma⟩
      exact ⟨m, hm, hma⟩
    rcases ha' with ⟨m, hm, hma⟩
    have hlt' := hlt m hm
    rw [hma] at hlt'
    simp only [List.mem_cons, List.not_mem_nil, or_false] at hb
    rcases hb with hb | hb
    · subst hb
      exact Nat.ne_of_lt hlt'
    · subst hb
      exact Nat.ne_of_lt (Nat.lt_succ_of_lt hlt')

/-- Witness for `submit_ids`: the initial app state with input `Hi`. -/
theorem submit_ids_witness :
    (¬ jsTrim "Hi" = "") ∧
    ((handleSubmit { messages := initialMessages, currentMessage := "Hi", checkpointId := none }).1.messages
      = initialMessages ++
        [{ id := newMessageIdOf initialMessages, content := "Hi", isUser := true, type := "message" },
         { id := newMessageIdOf initialMessages + 1, content := "", isUser := false
           type := "message", isLoading := some true
           searchInfo := some { stages := [], query := "", urls := some (.jarr .nil), error := none } }] ∧
      (∃ t, (handleSubmit { messages := initialMessages, currentMessage := "Hi", checkpointId := none }).2 = some t ∧
        t.stream0.aiResponseId = newMessageIdOf initialMessages + 1) ∧
      (∀ m ∈ initialMessages, m.id < newMessageIdOf initialMessages) ∧
      (((initialMessages.map fun m => m.id).Pairwise (· ≠ ·)) →
        ((((handleSubmit { messages := initialMessages, currentMessage := "Hi", checkpointId := none }).1.messages.map
            fun m => m.id).Pairwise (· ≠ ·))))) :=
  ⟨by decide, submit_ids { messages := initialMessages, currentMessage := "Hi", checkpointId := none } (by decide)⟩

/-! ## C10: blank submissions are a no-op -/

/-- C10.  A form submission whose input is empty or whitespace-only leaves
the whole app state unchanged — in particular the messages list and the
stored checkpoint id — and opens no stream connection. -/
theorem submit_blank_noop (st : AppState) (h : jsTrim st.currentMessage = "") :
    handleSubmit st = (st, none) ∧
    (handleSubmit st).1.messages = st.messages ∧
    (handleSubmit st).1.checkpointId = st.checkpointId ∧
    (handleSubmit st).2 = none := by
  have hs : handleSubmit st = (st, none) := by
    unfold handleSubmit
    rw [if_pos h]
  exact ⟨hs, by rw [hs], by rw [hs], by rw [hs]⟩

/-- Witness for `submit_blank_noop`: a whitespace-only input. -/
theorem submit_blank_noop_witness :
    jsTrim "   " = "" ∧
    (handleSubmit { messages := initialMessages, currentMessage := "   ", checkpointId := some "cp-7" }
        = ({ messages := initialMessages, currentMessage := "   ", checkpointId := some "cp-7" }, none) ∧
      (handleSubmit { messages := initialMessages, currentMessage := "   ", checkpointId := some "cp-7" }).1.messages
        = initialMessages ∧
      (handleSubmit { messages := initialMessages, currentMessage := "   ", checkpointId := some "cp-7" }).1.checkpointId
        = some "cp-7" ∧
      (handleSubmit { messages := initialMessages, currentMessage := "   ", checkpointId := some "cp-7" }).2 = none) :=
  ⟨by decide,
   submit_blank_noop { messages := initialMessages, currentMessage := "   ", checkpointId := some "cp-7" } (by decide)⟩

/-! ## C6: the `search_start` handler -/

/-- C6 is falsified on the code: a `search_start` event does not retain the
previously recorded stages — the `reading` stage present before the event is
gone afterwards, the stage list having been replaced by `["searching"]`. -/
theorem search_start_drops_previous_stage :
    "reading" ∈ dataStages wStateC6 ∧
    dataStages (processEvent wStateC6 (.searchStart "q1")) = ["searching"] ∧
    "reading" ∉ dataStages (processEvent wStateC6 (.searchStart "q1")) := by
  decide

/-- C6 amended.  On `search_start{query}` the reducer replaces the stage
record by a fresh one: `stages` becomes exactly `["searching"]` (so
`searching` is not duplicated, but previously recorded stages are discarded
rather than retained), `query` is set to the event's query and `urls` is
reset to `[]`; the displayed assistant message receives the same fresh
record. -/
theorem search_start_resets_record (s : StreamState) (q : String) :
    (processEvent s (.searchStart q)).searchData
      = some { stages := ["searching"], query := q, urls := some (.jarr .nil), error := none } ∧
    findAi (processEvent s (.searchStart q))
      = (findAi s).map fun m =>
          { m with
            content := s.streamedContent
            searchInfo := some { stages := ["searching"], query := q
                                 urls := some (.jarr .nil), error := none }
            isLoading := some false } :=
  ⟨rfl, findAi_applySearchInfo s _⟩

/-! ## C5: what the user sees when a turn terminates -/

/-- C5 is falsified on the code at one edge: a turn that received a `content`
event whose fragment was empty, then hit a transport error.  `onerror` tests
the accumulated text (`!streamedContent`), not the `hasReceivedContent` flag
(which is set but never read), so the assistant message is replaced by the
generic failure text instead of the (empty) accumulated text. -/
theorem transport_error_after_empty_fragment :
    (processEvents wStateC5 [ClientEvent.content ""]).hasReceivedContent = true ∧
    (processEvents wStateC5 [ClientEvent.content ""]).streamedContent = "" ∧
    (∃ m, findAi (onTransportError (processEvents wStateC5 [ClientEvent.content ""])) = some m ∧
      m.content = transportErrorText) ∧
    transportErrorText ≠ "" :=
  ⟨rfl, rfl,
   ⟨{ id := 3, content := transportErrorText, isUser := false, type := "message"
      isLoading := some false
      searchInfo := some { stages := [], query := "", urls := some (.jarr .nil), error := none } },
    rfl, rfl⟩,
   by decide⟩

theorem processEvent_end_none (s : StreamState) (h : s.searchData = none) :
    processEvent s .endEvent = s := by
  unfold processEvent
  rw [h]

/-- C5 amended.  For a turn terminating via `end` the displayed assistant
message always equals the accumulated text.  For a turn terminating via a
transport error the accumulated text is kept exactly when it is nonempty;
when it is empty (no `content` event, or only empty fragments) the handler
substitutes the generic failure text.  A no-content termination never leaves
a blank assistant bubble: the renderer shows the typing animation, the
waiting fallback, or the failure text, and it can never show empty text. -/
theorem termination_display (s0 : StreamState) (fs : List String) (m0 : Message)
    (h1 : s0.streamedContent = "")
    (h2 : findAi s0 = some m0)
    (h3 : m0.content = "")
    (h4 : m0.isLoading = some true)
    (h5 : s0.searchData = none) :
    (∃ me, findAi (processEvent (processEvents s0 (fs.map ClientEvent.content)) .endEvent) = some me ∧
      me.content = String.join fs) ∧
    (String.join fs ≠ "" →
      ∃ mo, findAi (onTransportError (processEvents s0 (fs.map ClientEvent.content))) = some mo ∧
        mo.content = String.join fs) ∧
    (String.join fs = "" →
      ∃ mo, findAi (onTransportError (processEvents s0 (fs.map ClientEvent.content))) = some mo ∧
        renderBubble mo = .text transportErrorText) ∧
    (String.join fs = "" →
      ∃ me, findAi (processEvent (processEvents s0 (fs.map ClientEvent.content)) .endEvent) = some me ∧
        (renderBubble me = .typing ∨ renderBubble me = .waiting)) ∧
    (∀ m : Message, renderBubble m ≠ .text "") := by
  obtain ⟨hai, hsc, hsd, hfind⟩ := processEvents_content fs s0
  have hscv : (processEvents s0 (fs.map ClientEvent.content)).streamedContent = String.join fs := by
    rw [hsc, h1]
    simp
  have hsd' : (processEvents s0 (fs.map ClientEvent.content)).searchData = none := by
    rw [hsd, h5]
  have hend : processEvent (processEvents s0 (fs.map ClientEvent.content)) .endEvent
      = processEvents s0 (fs.map ClientEvent.content) :=
    processEvent_end_none _ hsd'
  have hjoin0 : s0.streamedContent ++ String.join fs = String.join fs := by
    rw [h1]
    simp
  have hfindS : findAi (processEvents s0 (fs.map ClientEvent.content))
      = some (if fs.isEmpty then m0
              else { m0 with content := String.join fs, isLoading := some false }) := by
    rw [hfind, h2]
    by_cases hfs : fs.isEmpty
    · simp [hfs]
    · simp [hfs, hjoin0]
  have hfinContent :
      (if fs.isEmpty then m0
       else { m0 with content := String.join fs, isLoading := some false }).content
        = String.join fs := by
    by_cases hfs : fs.isEmpty
    · rw [if_pos hfs, h3]
      have hnil : fs = [] := List.isEmpty_iff.mp hfs
      subst hnil
      rfl
    · rw [if_neg hfs]
  refine ⟨⟨_, by rw [hend]; exact hfindS, hfinContent⟩, ?_, ?_, ?_, ?_⟩
  · intro hne
    have honerr : onTransportError (processEvents s0 (fs.map ClientEvent.content))
        = processEvents s0 (fs.map ClientEvent.content) := by
      unfold onTransportError
      rw [if_neg (fun h => hne (hscv.symm.trans h))]
    rw [honerr]
    exact ⟨_, hfindS, hfinContent⟩
  · intro hz
    have honerr2 : findAi (onTransportError (processEvents s0 (fs.map ClientEvent.content)))
        = (findAi (processEvents s0 (fs.map ClientEvent.content))).map
            (fun m => { m with content := transportErrorText, isLoading := some false }) := by
      unfold onTransportError
      rw [if_pos (hscv.trans hz)]
      show List.find?
            (fun m => m.id == (processEvents s0 (fs.map ClientEvent.content)).aiResponseId)
            ((processEvents s0 (fs.map ClientEvent.content)).messages.map fun m =>
              if m.id == (processEvents s0 (fs.map ClientEvent.content)).aiResponseId then
                { m with content := transportErrorText, isLoading := some false }
              else m)
          = _
      exact findAi_map_branch _ _ (fun m => rfl)
    rw [honerr2, hfindS]
    exact ⟨_, rfl, rfl⟩
  · intro hz
    rw [hend, hfindS]
    refine ⟨_, rfl, ?_⟩
    by_cases hfs : fs.isEmpty
    · left
      rw [if_pos hfs]
      simp [renderBubble, h4]
    · right
      rw [if_neg hfs]
      simp [renderBubble, hz]
  · intro m
    unfold renderBubble
    split_ifs with hL hC
    · simp
    · simp
    · simp only [ne_eq, Rendered.text.injEq]
      exact hC

/-- Witness for `termination_display`: one nonempty fragment at a concrete
turn state. -/
theorem termination_display_witness :
    (wStateC5.streamedContent = "" ∧
      findAi wStateC5 = some
        { id := 3, content := "", isUser := false, type := "message"
          isLoading := some true
          searchInfo := some { stages := [], query := "", urls := some (.jarr .nil), error := none } } ∧
      wStateC5.searchData = none) ∧
    ((∃ me, findAi (processEvent (processEvents wStateC5 (["Hi there"].map ClientEvent.content)) .endEvent) = some me ∧
        me.content = String.join ["Hi there"]) ∧
      (String.join ["Hi there"] ≠ "" →
        ∃ mo, findAi (onTransportError (processEvents wStateC5 (["Hi there"].map ClientEvent.content))) = some mo ∧
          mo.content = String.join ["Hi there"]) ∧
      (String.join ["Hi there"] = "" →
        ∃ mo, findAi (onTransportError (processEvents wStateC5 (["Hi there"].map ClientEvent.content))) = some mo ∧
          renderBubble mo = .text transportErrorText) ∧
      (String.join ["Hi there"] = "" →
        ∃ me, findAi (processEvent (processEvents wStateC5 (["Hi there"].map ClientEvent.content)) .endEvent) = some me ∧
          (renderBubble me = .typing ∨ renderBubble me = .waiting)) ∧
      (∀ m : Message, renderBubble m ≠ .text "")) :=
  ⟨⟨rfl, rfl, rfl⟩,
   termination_display wStateC5 ["Hi there"]
     { id := 3, content := "", isUser := false, type := "message"
       isLoading := some true
       searchInfo := some { stages := [], query := "", urls := some (.jarr .nil), error := none } }
     rfl rfl rfl rfl rfl⟩

/-! ## C7: stage ordering over a causally ordered turn -/

/-- `findAi` over the reducer's uniform update of a state's message list. -/
theorem findAi_set_messages (s : StreamState) (upd : Message → Message)
    (hid : ∀ m, (upd m).id = m.id) :
    findAi { s with messages := s.messages.map fun m =>
        if m.id == s.aiResponseId then upd m else m }
      = (findAi s).map upd :=
  findAi_map_branch s upd hid

theorem processEvent_end_some (s : StreamState) (d : SearchInfo) (h : s.searchData = some d) :
    processEvent s .endEvent
      = { s with messages := s.messages.map fun m =>
            if m.id == s.aiResponseId then
              { m with searchInfo := some { d with stages := d.stages ++ ["writing"] }
                       isLoading := some false }
            else m } := by
  unfold processEvent
  rw [h]

theorem msgStages_content (s : StreamState) (t : String) :
    msgStages (processEvent s (.content t)) = msgStages s := by
  unfold msgStages
  rw [processEvent_content_findAi]
  cases hfm : findAi s
  · rfl
  · rfl

/-- The `search_results` handler either has no effect (its inner `try` caught
a `JSON.parse` failure on a string-typed `urls`) or performs the uniform
search-info update with the `reading` record. -/
theorem processEvent_searchResults_cases (s : StreamState) (u : Option JVal) :
    processEvent s (.searchResults u) = s ∨
    ∃ urls, processEvent s (.searchResults u) = applySearchInfo s (readingInfo s urls) := by
  rcases u with _ | v
  · exact Or.inr ⟨none, rfl⟩
  · cases v with
    | jstr str =>
      cases hj : jsonParse str with
      | none =>
        left
        show (match (match jsonParse str with | some v => some (some v) | none => none) with
              | none => s
              | some urls => applySearchInfo s (readingInfo s urls)) = s
        rw [hj]
      | some w =>
        right
        refine ⟨some w, ?_⟩
        show (match (match jsonParse str with | some v => some (some v) | none => none) with
              | none => s
              | some urls => applySearchInfo s (readingInfo s urls))
            = applySearchInfo s (readingInfo s (some w))
        rw [hj]
    | jnull => exact Or.inr ⟨some .jnull, rfl⟩
    | jbool b => exact Or.inr ⟨some (.jbool b), rfl⟩
    | jnum l => exact Or.inr ⟨some (.jnum l), rfl⟩
    | jarr es => exact Or.inr ⟨some (.jarr es), rfl⟩
    | jobj ms => exact Or.inr ⟨some (.jobj ms), rfl⟩

theorem head_append_of_head (l l' : List String) (a : String) (h : l.head? = some a) :
    (l ++ l').head? = some a := by
  cases l with
  | nil => simp at h
  | cons b t => simpa using h

theorem noReading_append (l : List String) (x : String) (hl : "reading" ∉ l)
    (hx : x ≠ "reading") : "reading" ∉ l ++ [x] := by
  intro hmem
  rcases List.mem_append.mp hmem with h1 | h1
  · exact hl h1
  · simp at h1
    exact hx h1.symm

/-- The stage invariant is preserved by any causally ordered event suffix. -/
theorem stageInv_run : ∀ (evs : List ClientEvent) (flag : Bool) (s : StreamState),
    causalFrom flag evs = true → stageInv flag s →
    ∃ flag2, stageInv flag2 (processEvents s evs) := by
  intro evs
  induction evs with
  | nil =>
    intro flag s _ hi
    exact ⟨flag, hi⟩
  | cons e rest ih =>
    intro flag s hc hi
    obtain ⟨hiN, hiS, hiM⟩ := hi
    show ∃ flag2, stageInv flag2 (processEvents (processEvent s e) rest)
    cases e with
    | checkpoint id => exact ih flag _ hc ⟨hiN, hiS, hiM⟩
    | unknown => exact ih flag _ hc ⟨hiN, hiS, hiM⟩
    | content t =>
      refine ih flag _ hc ⟨hiN, hiS, ?_⟩
      rw [msgStages_content]
      exact hiM
    | searchStart q =>
      refine ih true _ hc ⟨?_, ?_, ?_⟩
      · intro hnone
        exact Option.noConfusion hnone
      · intro d hd
        have hdn : d = { stages := ["searching"], query := q, urls := some (.jarr .nil), error := none } := by
          injection hd with h'
          exact h'.symm
        subst hdn
        exact ⟨fun _ => rfl, fun hFalse => by simp at hFalse⟩
      · show headOrNoReading (msgStages (applySearchInfo s
          { stages := ["searching"], query := q, urls := some (.jarr .nil), error := none }))
        rw [msgStages_applySearchInfo]
        cases findAi s
        · exact Or.inr (by simp)
        · exact Or.inl rfl
    | searchResults u =>
      have hc' : flag = true ∧ causalFrom flag rest = true := by
        have hc2 : (flag && causalFrom flag rest) = true := hc
        simpa using hc2
      obtain ⟨hf, hcr⟩ := hc'
      subst hf
      rcases hsd : s.searchData with _ | d
      · have hcontra := hiN hsd
        simp at hcontra
      · have hdhead : d.stages.head? = some "searching" := (hiS d hsd).1 rfl
        rcases processEvent_searchResults_cases s u with hcase | ⟨urls, hcase⟩
        · rw [hcase]
          exact ih true _ hcr ⟨hiN, hiS, hiM⟩
        · have hrihead : (readingInfo s urls).stages.head? = some "searching" := by
            unfold readingInfo
            simp only
            rw [hsd]
            exact head_append_of_head _ _ _ hdhead
          rw [hcase]
          refine ih true _ hcr ⟨?_, ?_, ?_⟩
          · intro hnone
            exact Option.noConfusion hnone
          · intro d2 hd2
            have hdn : d2 = readingInfo s urls := by
              injection hd2 with h'
              exact h'.symm
            subst hdn
            exact ⟨fun _ => hrihead, fun hFalse => by simp at hFalse⟩
          · rw [msgStages_applySearchInfo]
            cases findAi s
            · exact Or.inr (by simp)
            · exact Or.inl hrihead
    | searchError e2 =>
      have hstages : (flag = true → (errorInfo s e2).stages.head? = some "searching") ∧
          (flag = false → "reading" ∉ (errorInfo s e2).stages) := by
        constructor
        · intro hf
          rcases hsd : s.searchData with _ | d
          · have hcontra := hiN hsd
            rw [hf] at hcontra
            simp at hcontra
          · have hdh := (hiS d hsd).1 hf
            unfold errorInfo
            simp only
            rw [hsd]
            exact head_append_of_head _ _ _ hdh
        · intro hf
          rcases hsd : s.searchData with _ | d
          · unfold errorInfo
            simp only
            rw [hsd]
            decide
          · have hdn := (hiS d hsd).2 hf
            unfold errorInfo
            simp only
            rw [hsd]
            exact noReading_append _ _ hdn (by decide)
      refine ih flag _ hc ⟨?_, ?_, ?_⟩
      · intro hnone
        exact Option.noConfusion hnone
      · intro d2 hd2
        have hdn : d2 = errorInfo s e2 := by
          injection hd2 with h'
          exact h'.symm
        subst hdn
        exact hstages
      · show headOrNoReading (msgStages (applySearchInfo s (errorInfo s e2)))
        rw [msgStages_applySearchInfo]
        cases findAi s
        · exact Or.inr (by simp)
        · cases hfv : flag
          · exact Or.inr (hstages.2 hfv)
          · exact Or.inl (hstages.1 hfv)
    | endEvent =>
      rcases hsd : s.searchData with _ | d
      · rw [processEvent_end_none s hsd]
        exact ih flag _ hc ⟨hiN, hiS, hiM⟩
      · rw [processEvent_end_some s d hsd]
        refine ih flag _ hc ⟨?_, ?_, ?_⟩
        · intro hnone
          exact hiN hnone
        · intro d2 hd2
          exact hiS d2 hd2
        · unfold msgStages
          rw [findAi_set_messages s
            (fun m => { m with searchInfo := some { d with stages := d.stages ++ ["writing"] }
                               isLoading := some false }) (fun m => rfl)]
          cases findAi s
          · exact Or.inr (by simp)
          · show headOrNoReading (d.stages ++ ["writing"])
            rcases hiS d hsd with ⟨hT, hF⟩
            cases hfv : flag
            · exact Or.inr (noReading_append _ _ (hF hfv) (by decide))
            · exact Or.inl (head_append_of_head _ _ _ (hT hfv))

theorem notMem_append_singleton (y : String) (l : List String) (x : String)
    (hl : y ∉ l) (hx : x ≠ y) : y ∉ l ++ [x] := by
  intro hmem
  rcases List.mem_append.mp hmem with h1 | h1
  · exact hl h1
  · simp at h1
    exact hx h1.symm

theorem noWriting_run : ∀ (evs : List ClientEvent) (s : StreamState),
    ClientEvent.endEvent ∉ evs → noWritingInv s → noWritingInv (processEvents s evs) := by
  intro evs
  induction evs with
  | nil =>
    intro s _ h
    exact h
  | cons e rest ih =>
    intro s hne h
    obtain ⟨hD, hM⟩ := h
    have hne1 : e ≠ ClientEvent.endEvent := fun he => hne (he ▸ List.mem_cons_self e rest)
    have hner : ClientEvent.endEvent ∉ rest := fun hr => hne (List.mem_cons_of_mem _ hr)
    show noWritingInv (processEvents (processEvent s e) rest)
    cases e with
    | endEvent => exact absurd rfl hne1
    | checkpoint id => exact ih _ hner ⟨hD, hM⟩
    | unknown => exact ih _ hner ⟨hD, hM⟩
    | content t =>
      refine ih _ hner ⟨hD, ?_⟩
      rw [msgStages_content]
      exact hM
    | searchStart q =>
      refine ih _ hner ⟨?_, ?_⟩
      · show "writing" ∉ dataStages (applySearchInfo s
          { stages := ["searching"], query := q, urls := some (.jarr .nil), error := none })
        rw [dataStages_applySearchInfo]
        show "writing" ∉ ["searching"]
        decide
      · show "writing" ∉ msgStages (applySearchInfo s
          { stages := ["searching"], query := q, urls := some (.jarr .nil), error := none })
        rw [msgStages_applySearchInfo]
        cases findAi s
        · simp
        · show "writing" ∉ ["searching"]
          decide
    | searchResults u =>
      rcases processEvent_searchResults_cases s u with hcase | ⟨urls, hcase⟩
      · rw [hcase]
        exact ih _ hner ⟨hD, hM⟩
      · have hri : "writing" ∉ (readingInfo s urls).stages := by
          unfold readingInfo
          simp only
          rcases hsd : s.searchData with _ | d
          · show "writing" ∉ ["reading"]
            decide
          · show "writing" ∉ d.stages ++ ["reading"]
            have hDd : "writing" ∉ d.stages := by
              unfold dataStages at hD
              rw [hsd] at hD
              exact hD
            exact notMem_append_singleton _ _ _ hDd (by decide)
        rw [hcase]
        refine ih _ hner ⟨?_, ?_⟩
        · show "writing" ∉ dataStages (applySearchInfo s (readingInfo s urls))
          rw [dataStages_applySearchInfo]
          exact hri
        · show "writing" ∉ msgStages (applySearchInfo s (readingInfo s urls))
          rw [msgStages_applySearchInfo]
          cases findAi s
          · simp
          · exact hri
    | searchError e2 =>
      have hri : "writing" ∉ (errorInfo s e2).stages := by
        unfold errorInfo
        simp only
        rcases hsd : s.searchData with _ | d
        · show "writing" ∉ ["error"]
          decide
        · show "writing" ∉ d.stages ++ ["error"]
          have hDd : "writing" ∉ d.stages := by
            unfold dataStages at hD
            rw [hsd] at hD
            exact hD
          exact notMem_append_singleton _ _ _ hDd (by decide)
      refine ih _ hner ⟨?_, ?_⟩
      · show "writing" ∉ dataStages (applySearchInfo s (errorInfo s e2))
        rw [dataStages_applySearchInfo]
        exact hri
      · show "writing" ∉ msgStages (applySearchInfo s (errorInfo s e2))
        rw [msgStages_applySearchInfo]
        cases findAi s
        · simp
        · exact hri

theorem readingPreceded_of (l : List String) (h : headOrNoReading l) : ReadingPreceded l := by
  rcases h with h | h
  · intro i hi
    cases l with
    | nil => simp at hi
    | cons a t =>
      have ha : a = "searching" := by simpa using h
      cases i with
      | zero =>
        have hz : a = "reading" := by simpa using hi
        rw [ha] at hz
        exact absurd hz (by decide)
      | succ k =>
        exact ⟨0, Nat.succ_pos k, by simp [ha]⟩
  · intro i hi
    exact absurd (List.get?_mem hi) h

/-- C7.  Over any causally ordered event sequence of one turn (a
`searchResults` event only after some `searchStart`; the turn starts with no
search record and no recorded stages), the reducer never places `reading`
before `searching` — neither in its `searchData` stage list nor in the stage
list shown on the assistant message; `writing` is never present before an
`end` event has been processed; and processing `end` appends `writing` to the
displayed stage record exactly when a search record exists at that point
(otherwise the message is left as it was). -/
theorem stage_order (s0 : StreamState) (evs : List ClientEvent)
    (hc : causalOk evs = true)
    (h0 : s0.searchData = none)
    (h1 : msgStages s0 = []) :
    ReadingPreceded (dataStages (processEvents s0 evs)) ∧
    ReadingPreceded (msgStages (processEvents s0 evs)) ∧
    (ClientEvent.endEvent ∉ evs →
      "writing" ∉ dataStages (processEvents s0 evs) ∧
      "writing" ∉ msgStages (processEvents s0 evs)) ∧
    (∀ l, evs = l ++ [ClientEvent.endEvent] →
      findAi (processEvents s0 evs)
        = (findAi (processEvents s0 l)).map fun m =>
            match (processEvents s0 l).searchData with
            | some d => { m with searchInfo := some { d with stages := d.stages ++ ["writing"] }
                                 isLoading := some false }
            | none => m) := by
  have hinv0 : stageInv false s0 := by
    refine ⟨fun _ => rfl, ?_, Or.inr (by rw [h1]; simp)⟩
    intro d hd
    rw [h0] at hd
    exact Option.noConfusion hd
  obtain ⟨flag2, hN, hS, hM⟩ := stageInv_run evs false s0 hc hinv0
  have hD : headOrNoReading (dataStages (processEvents s0 evs)) := by
    rcases hsd : (processEvents s0 evs).searchData with _ | d
    · right
      unfold dataStages
      rw [hsd]
      simp
    · rcases hS d hsd with ⟨hT, hF⟩
      unfold dataStages
      rw [hsd]
      cases hfv : flag2
      · exact Or.inr (hF hfv)
      · exact Or.inl (hT hfv)
  refine ⟨readingPreceded_of _ hD, readingPreceded_of _ hM, ?_, ?_⟩
  · intro hnend
    exact noWriting_run evs s0 hnend
      ⟨by unfold dataStages; rw [h0]; simp, by rw [h1]; simp⟩
  · intro l hl
    subst hl
    have hsplit : processEvents s0 (l ++ [ClientEvent.endEvent])
        = processEvent (processEvents s0 l) .endEvent := by
      simp [processEvents, List.foldl_append]
    rw [hsplit]
    rcases hsd : (processEvents s0 l).searchData with _ | d
    · rw [processEvent_end_none _ hsd]
      cases findAi (processEvents s0 l) <;> rfl
    · rw [processEvent_end_some _ d hsd]
      exact findAi_set_messages (processEvents s0 l)
        (fun m => { m with searchInfo := some { d with stages := d.stages ++ ["writing"] }
                           isLoading := some false }) (fun m => rfl)

/-- Witness for `stage_order`: one full search turn in causal order. -/
theorem stage_order_witness :
    (causalOk [ClientEvent.content "x", ClientEvent.searchStart "q",
        ClientEvent.searchResults (some (.jarr .nil)), ClientEvent.endEvent] = true ∧
      wStateC7.searchData = none ∧ msgStages wStateC7 = []) ∧
    (ReadingPreceded (dataStages (processEvents wStateC7
        [ClientEvent.content "x", ClientEvent.searchStart "q",
         ClientEvent.searchResults (some (.jarr .nil)), ClientEvent.endEvent])) ∧
      ReadingPreceded (msgStages (processEvents wStateC7
        [ClientEvent.content "x", ClientEvent.searchStart "q",
         ClientEvent.searchResults (some (.jarr .nil)), ClientEvent.endEvent])) ∧
      (ClientEvent.endEvent ∉
          [ClientEvent.content "x", ClientEvent.searchStart "q",
           ClientEvent.searchResults (some (.jarr .nil)), ClientEvent.endEvent] →
        "writing" ∉ dataStages (processEvents wStateC7
          [ClientEvent.content "x", ClientEvent.searchStart "q",
           ClientEvent.searchResults (some (.jarr .nil)), ClientEvent.endEvent]) ∧
        "writing" ∉ msgStages (processEvents wStateC7
          [ClientEvent.content "x", ClientEvent.searchStart "q",
           ClientEvent.searchResults (some (.jarr .nil)), ClientEvent.endEvent])) ∧
      (∀ l, [ClientEvent.content "x", ClientEvent.searchStart "q",
              ClientEvent.searchResults (some (.jarr .nil)), ClientEvent.endEvent]
            = l ++ [ClientEvent.endEvent] →
        findAi (processEvents wStateC7
            [ClientEvent.content "x", ClientEvent.searchStart "q",
             ClientEvent.searchResults (some (.jarr .nil)), ClientEvent.endEvent])
          = (findAi (processEvents wStateC7 l)).map fun m =>
              match (processEvents wStateC7 l).searchData with
              | some d => { m with searchInfo := some { d with stages := d.stages ++ ["writing"] }
                                   isLoading := some false }
              | none => m)) :=
  ⟨⟨rfl, rfl, rfl⟩,
   stage_order wStateC7
     [ClientEvent.content "x", ClientEvent.searchStart "q",
      ClientEvent.searchResults (some (.jarr .nil)), ClientEvent.endEvent] rfl rfl rfl⟩

end Chatbot
